import Mathlib

/-!
Verification of the membership-consistency layer of the saas-starter MongoDB
query/schema code (src/lib/db/mongodb/schema.ts and the MongoDB query layer).

The embedding models each MongoDB collection as a list of documents and each
query-layer operation as a pure function on a `DB` value.  Mongoose sessions
and `withTransaction` are modelled explicitly: writes performed with the
session go to a working copy and become visible only on commit; an aborted
transaction leaves the committed state untouched.  `Date.now` values are
passed in as explicit `now : Nat` arguments.  ObjectIds are modelled as `Nat`.
-/

namespace SaaS

/-- User roles (schema.ts `UserRole`). -/
inductive Role where
  | member
  | owner
  | admin
deriving DecidableEq, Repr

/-- Invitation statuses (schema.ts `InvitationStatus`). -/
inductive InvStatus where
  | pending
  | accepted
  | declined
  | expired
deriving DecidableEq, Repr

/-- Embedded membership subdocument (schema.ts `ITeamMemberEmbedded`),
used inside both `User.teamMemberships` and `Team.teamMembers`. -/
structure Membership where
  userId : Nat
  teamId : Nat
  role : Role
  joinedAt : Nat
  userName : Option String
  userEmail : Option String
deriving DecidableEq, Repr

/-- User document (schema.ts `IUser`); `deletedAt = none` means active. -/
structure UserDoc where
  id : Nat
  name : Option String
  email : String
  role : Role
  teamMemberships : List Membership
  deletedAt : Option Nat
  updatedAt : Nat
deriving DecidableEq, Repr

/-- Team document (schema.ts `ITeam`). -/
structure TeamDoc where
  id : Nat
  name : String
  teamMembers : List Membership
  stripeCustomerId : Option String
  stripeSubscriptionId : Option String
  stripeProductId : Option String
  planName : Option String
  subscriptionStatus : Option String
  updatedAt : Nat
deriving DecidableEq, Repr

/-- Invitation document (schema.ts `IInvitation`). -/
structure InvitationDoc where
  id : Nat
  teamId : Nat
  email : String
  role : Role
  invitedBy : Nat
  invitedAt : Nat
  status : InvStatus
  teamName : Option String
  invitedByName : Option String
  invitedByEmail : Option String
deriving DecidableEq, Repr

/-- Activity-log document (schema.ts `IActivityLog`). -/
structure LogDoc where
  teamId : Nat
  userId : Option Nat
  action : String
  timestamp : Nat
  ipAddress : Option String
  userName : Option String
  userEmail : Option String
  teamName : Option String
deriving DecidableEq, Repr

/-- The whole data store: one list per MongoDB collection. -/
structure DB where
  users : List UserDoc
  teams : List TeamDoc
  invitations : List InvitationDoc
  logs : List LogDoc
deriving DecidableEq, Repr

/-- Errors thrown by the query layer.  `injected` stands for a fault injected
into a designated step to probe atomicity, `validation` for a Mongoose
document-validation failure on save, `duplicateKey` for a MongoDB E11000
unique-index violation. -/
inductive DbError where
  | notFound (what : String)
  | notPending
  | validation (what : String)
  | duplicateKey
  | injected
deriving DecidableEq, Repr

-- ============================================================================
-- Lookup and save helpers (Model.findById / findOne / findByIdAndUpdate)
-- ============================================================================

/-- `User.findById` (no soft-delete filter). -/
def findUser (db : DB) (uid : Nat) : Option UserDoc :=
  db.users.find? (fun u => u.id == uid)

/-- `User.findOne` with the active filter `deletedAt: null` used by
`getUser` / `getUserWithTeam`. -/
def findActiveUser (db : DB) (uid : Nat) : Option UserDoc :=
  db.users.find? (fun u => u.id == uid && u.deletedAt == none)

/-- `Team.findById`. -/
def findTeam (db : DB) (tid : Nat) : Option TeamDoc :=
  db.teams.find? (fun t => t.id == tid)

/-- `Invitation.findById`. -/
def findInvitation (db : DB) (iid : Nat) : Option InvitationDoc :=
  db.invitations.find? (fun i => i.id == iid)

/-- Persisting a user document: replaces the stored document with this id. -/
def saveUserDoc (db : DB) (u : UserDoc) : DB :=
  { db with users := db.users.map (fun v => if v.id = u.id then u else v) }

/-- Persisting a team document: replaces the stored document with this id. -/
def saveTeamDoc (db : DB) (t : TeamDoc) : DB :=
  { db with teams := db.teams.map (fun v => if v.id = t.id then t else v) }

/-- Persisting an invitation document. -/
def saveInvitationDoc (db : DB) (i : InvitationDoc) : DB :=
  { db with invitations := db.invitations.map (fun v => if v.id = i.id then i else v) }

/-- Mongoose validator on `Team.teamMembers` (schema.ts: at most 100 members). -/
def teamValid (t : TeamDoc) : Bool :=
  t.teamMembers.length ≤ 100

/-- Mongoose validator on `User.teamMemberships` (schema.ts: at most 50 teams). -/
def userValid (u : UserDoc) : Bool :=
  u.teamMemberships.length ≤ 50

-- ============================================================================
-- Sessions and transactions (connection.ts withTransaction / session use)
-- ============================================================================

/-- A client session in flight: `committed` is the state other observers see,
`working` is the state inside the transaction.  Writes made with the session
only touch `working`. -/
structure Txn where
  committed : DB
  working : DB
deriving DecidableEq, Repr

/-- `session.withTransaction(body)`: the body's session writes become visible
only if the body succeeds; on any error the transaction aborts and the
observable state is whatever was committed (session writes are discarded). -/
def withTransaction (db : DB) (body : Txn → Option DbError × Txn) :
    Option DbError × DB :=
  match body { committed := db, working := db } with
  | (none, t) => (none, t.working)
  | (some e, t) => (some e, t.committed)

/-- `team.save({session})` (or `team.save()` on a document fetched through the
session): a session write, running the member-count validator first. -/
def sessionSaveTeam (t : TeamDoc) (txn : Txn) : Option DbError × Txn :=
  if teamValid t then (none, { txn with working := saveTeamDoc txn.working t })
  else (some (.validation "teamMembers"), txn)

/-- `user.save({session})`, running the membership-count validator first. -/
def sessionSaveUser (u : UserDoc) (txn : Txn) : Option DbError × Txn :=
  if userValid u then (none, { txn with working := saveUserDoc txn.working u })
  else (some (.validation "teamMemberships"), txn)

/-- `invitation.save({session})`. -/
def sessionSaveInvitation (i : InvitationDoc) (txn : Txn) : Option DbError × Txn :=
  (none, { txn with working := saveInvitationDoc txn.working i })

-- ============================================================================
-- addTeamMember (MongoDB query layer)
-- ============================================================================

/-- `addTeamMember(teamId, userId, role)` from the MongoDB query layer.
Inside one `withTransaction`: look up user and team, push a new entry onto
`team.teamMembers` and save, then push a new entry onto
`user.teamMemberships` and save.  The pushes are unconditional (no
already-a-member check).  `failAfterTeamSave` injects a fault between the
Team-side save and the User-side save to probe atomicity. -/
def addTeamMember (failAfterTeamSave : Bool) (now : Nat) (teamId userId : Nat)
    (role : Role) (db : DB) : Option DbError × DB :=
  withTransaction db (fun txn =>
    match findUser txn.working userId, findTeam txn.working teamId with
    | some user, some team =>
      let entry : Membership :=
        { userId := userId, teamId := teamId, role := role, joinedAt := now,
          userName := user.name, userEmail := some user.email }
      let team2 := { team with teamMembers := team.teamMembers ++ [entry] }
      match sessionSaveTeam team2 txn with
      | (some e, txn1) => (some e, txn1)
      | (none, txn1) =>
        if failAfterTeamSave then (some .injected, txn1)
        else
          let user2 :=
            { user with teamMemberships := user.teamMemberships ++ [entry] }
          sessionSaveUser user2 txn1
    | _, _ => (some (.notFound "User or team"), txn))

/-- Number of entries for `userId` in team `tid`'s member list. -/
def teamEntryCount (db : DB) (tid uid : Nat) : Nat :=
  match findTeam db tid with
  | some t => (t.teamMembers.filter (fun m => m.userId == uid)).length
  | none => 0

/-- Number of entries for `teamId = tid` in user `uid`'s membership list. -/
def userEntryCount (db : DB) (uid tid : Nat) : Nat :=
  match findUser db uid with
  | some u => (u.teamMemberships.filter (fun m => m.teamId == tid)).length
  | none => 0

/-- A fresh user with no memberships. -/
def annUser : UserDoc :=
  { id := 1, name := some "Ann", email := "a@x.com", role := .owner,
    teamMemberships := [], deletedAt := none, updatedAt := 0 }

/-- A fresh team with no members. -/
def acmeTeam : TeamDoc :=
  { id := 1, name := "Acme", teamMembers := [], stripeCustomerId := none,
    stripeSubscriptionId := none, stripeProductId := none, planName := none,
    subscriptionStatus := none, updatedAt := 0 }

/-- Initial store: one user, one team, no memberships. -/
def db0 : DB :=
  { users := [annUser], teams := [acmeTeam], invitations := [], logs := [] }

-- ============================================================================
-- Schema instance methods (schema.ts)
-- ============================================================================

/-- JavaScript string truthiness for an optional string: defined and
non-empty. -/
def truthy : Option String → Bool
  | none => false
  | some s => s ≠ ""

/-- Replace the first list element satisfying `p` by `f` of it
(array lookup by `findIndex` followed by an in-place mutation). -/
def updateFirst (p : α → Bool) (f : α → α) : List α → List α
  | [] => []
  | x :: xs => if p x then f x :: xs else x :: updateFirst p f xs

/-- The in-place update `TeamSchema.methods.addMember` applies to an
existing member entry: new role and joined time, denormalized name/email
overwritten only when a truthy value was supplied. -/
def touchMemberEntry (now : Nat) (role : Role) (uinfoName uinfoEmail : Option String)
    (m : Membership) : Membership :=
  { m with role := role, joinedAt := now,
           userName := if truthy uinfoName then uinfoName else m.userName,
           userEmail := if truthy uinfoEmail then uinfoEmail else m.userEmail }

/-- The member-array part of `TeamSchema.methods.addMember`: update the
first entry for `userId` in place when one exists, push otherwise. -/
def upsertMemberEntry (now : Nat) (teamId userId : Nat) (role : Role)
    (uinfoName uinfoEmail : Option String) (ms : List Membership) :
    List Membership :=
  if ms.any (fun m => m.userId == userId) then
    updateFirst (fun m => m.userId == userId)
      (touchMemberEntry now role uinfoName uinfoEmail) ms
  else
    ms ++ [{ userId := userId, teamId := teamId, role := role, joinedAt := now,
             userName := uinfoName, userEmail := uinfoEmail }]

/-- `TeamSchema.methods.addMember` before its save: if an entry for `userId`
already exists, update its role and joined time in place (and its
denormalized name/email when truthy values are supplied); otherwise push a
new entry. -/
def teamAddMember (now : Nat) (userId : Nat) (role : Role)
    (uinfoName uinfoEmail : Option String) (team : TeamDoc) : TeamDoc :=
  let ms := upsertMemberEntry now team.id userId role uinfoName uinfoEmail team.teamMembers
  { team with teamMembers := ms }

/-- The membership-array part of `UserSchema.methods.addTeamMembership`:
update the first entry for `teamId` in place when one exists, push
otherwise (snapshotting the user's own name/email). -/
def upsertMembershipEntry (now : Nat) (teamId : Nat) (role : Role)
    (user : UserDoc) (ms : List Membership) : List Membership :=
  if ms.any (fun m => m.teamId == teamId) then
    updateFirst (fun m => m.teamId == teamId)
      (fun m => { m with role := role, joinedAt := now }) ms
  else
    ms ++ [{ userId := user.id, teamId := teamId, role := role, joinedAt := now,
             userName := user.name, userEmail := some user.email }]

/-- `UserSchema.methods.addTeamMembership` before its save: if an entry for
`teamId` already exists, update its role and joined time in place; otherwise
push a new entry snapshotting the user's own name/email. -/
def userAddTeamMembership (now : Nat) (teamId : Nat) (role : Role)
    (user : UserDoc) : UserDoc :=
  let ms := upsertMembershipEntry now teamId role user user.teamMemberships
  { user with teamMemberships := ms }

/-- `InvitationSchema.methods.accept`: sets the status unconditionally. -/
def invitationAccept (inv : InvitationDoc) : InvitationDoc :=
  { inv with status := .accepted }

/-- `InvitationSchema.methods.decline`: sets the status unconditionally. -/
def invitationDecline (inv : InvitationDoc) : InvitationDoc :=
  { inv with status := .declined }

/-- `InvitationSchema.methods.expire`: sets the status unconditionally. -/
def invitationExpire (inv : InvitationDoc) : InvitationDoc :=
  { inv with status := .expired }

-- ============================================================================
-- acceptInvitation (MongoDB query layer)
-- ============================================================================

/-- `acceptInvitation(invitationId, userId)`: inside one `withTransaction`,
fetch the invitation (erroring unless it is pending), the user and the team
through the session, apply `team.addMember` and `user.addTeamMembership`
(their saves run on session-bound documents, hence inside the transaction),
then mark the invitation accepted and save it with the session. -/
def acceptInvitation (now : Nat) (invitationId userId : Nat) (db : DB) :
    Option DbError × DB :=
  withTransaction db (fun txn =>
    match findInvitation txn.working invitationId with
    | none => (some (.notFound "Invitation"), txn)
    | some invitation =>
      if invitation.status ≠ InvStatus.pending then (some .notPending, txn)
      else
        match findUser txn.working userId with
        | none => (some (.notFound "User"), txn)
        | some user =>
          match findTeam txn.working invitation.teamId with
          | none => (some (.notFound "Team"), txn)
          | some team =>
            let team2 :=
              teamAddMember now userId invitation.role user.name
                (some user.email) team
            match sessionSaveTeam team2 txn with
            | (some e, txn1) => (some e, txn1)
            | (none, txn1) =>
              let user2 :=
                userAddTeamMembership now invitation.teamId invitation.role user
              match sessionSaveUser user2 txn1 with
              | (some e, txn2) => (some e, txn2)
              | (none, txn2) =>
                sessionSaveInvitation (invitationAccept invitation) txn2)

-- ============================================================================
-- removeTeamMember (MongoDB query layer)
-- ============================================================================

/-- `removeTeamMember(teamId, userId)`: inside one `withTransaction`, a
`findByIdAndUpdate` pulling every member entry with this `userId` from the
team, then a `findByIdAndUpdate` pulling every membership entry with this
`teamId` from the user; both also set `updatedAt`.  A missing document or an
already-absent entry is simply a no-op. -/
def removeTeamMember (now : Nat) (teamId userId : Nat) (db : DB) :
    Option DbError × DB :=
  withTransaction db (fun txn =>
    let pullTeam := fun (t : TeamDoc) =>
      if t.id == teamId then
        { t with teamMembers := t.teamMembers.filter (fun m => !(m.userId == userId)),
                 updatedAt := now }
      else t
    let pullUser := fun (u : UserDoc) =>
      if u.id == userId then
        { u with teamMemberships := u.teamMemberships.filter (fun m => !(m.teamId == teamId)),
                 updatedAt := now }
      else u
    let w1 := { txn.working with teams := txn.working.teams.map pullTeam }
    let w2 := { w1 with users := w1.users.map pullUser }
    (none, { txn with working := w2 }))

-- ============================================================================
-- createUser (MongoDB query layer) and the email indexes
-- ============================================================================

/-- The `toLowerCase()` the query layer applies to emails, defined
structurally over the character list so concrete instances compute. -/
def lowerString (s : String) : String :=
  String.mk (s.data.map Char.toLower)

/-- The field-level `unique: true` on `UserSchema.email`: a plain unique
index over all user documents, deleted or not. -/
def emailIndexViolation (db : DB) (email : String) : Bool :=
  db.users.any (fun u => u.email == email)

/-- The explicit `unique_active_email` partial index: uniqueness of email
scoped to documents with `deletedAt: null`. -/
def activeEmailIndexViolation (db : DB) (email : String) : Bool :=
  db.users.any (fun u => u.email == email && u.deletedAt == none)

/-- `createUser(data)`: a single `User.create` with lowercased email, empty
membership list and no `deletedAt`.  The insert fails with a duplicate-key
error when either unique index on email is violated. -/
def createUser (now : Nat) (newId : Nat) (email : String) (name : Option String)
    (role : Option Role) (db : DB) : Option DbError × DB :=
  let e := lowerString email
  if emailIndexViolation db e || activeEmailIndexViolation db e then
    (some .duplicateKey, db)
  else
    (none, { db with users := db.users ++
        [{ id := newId, name := name, email := e, role := role.getD .member,
           teamMemberships := [], deletedAt := none, updatedAt := now }] })

/-- `softDeleteUser(userId)`: `findByIdAndUpdate` setting `deletedAt` and
`updatedAt`. -/
def softDeleteUser (now : Nat) (userId : Nat) (db : DB) : DB :=
  { db with users := db.users.map (fun u =>
      if u.id == userId then { u with deletedAt := some now, updatedAt := now }
      else u) }

-- ============================================================================
-- updateUser (MongoDB query layer) with its denormalization fan-out
-- ============================================================================

/-- The argument of `updateUser`: `Partial` of name/email/role, where `none`
means the field is omitted. -/
structure UpdateUserData where
  name : Option String
  email : Option String
  role : Option Role
deriving DecidableEq, Repr

/-- `updateUser(userId, data)`: a `findByIdAndUpdate` applying `$set` of the
supplied fields (email lowercased when truthy) plus `updatedAt`; then, only
when a truthy name or email was supplied, an `updateMany` fan-out over the
teams in the user's membership list, setting each matching member entry's
`userName`/`userEmail` to the supplied values (an `undefined` value for an
unsupplied field is stripped from the update, leaving that field untouched).
The fan-out touches only teams whose id is in the membership list and whose
member array contains the user. -/
def updateUser (now : Nat) (userId : Nat) (d : UpdateUserData) (db : DB) :
    Option DbError × DB :=
  match findUser db userId with
  | none => (none, db)
  | some user =>
    let user2 :=
      { user with
        name := match d.name with | some s => some s | none => user.name,
        email := match d.email with
          | some e => if e ≠ "" then lowerString e else e
          | none => user.email,
        role := d.role.getD user.role,
        updatedAt := now }
    let db1 := saveUserDoc db user2
    if truthy d.name || truthy d.email then
      let teamIds := user2.teamMemberships.map (fun m => m.teamId)
      let db2 :=
        { db1 with teams := db1.teams.map (fun t =>
            if teamIds.contains t.id &&
                t.teamMembers.any (fun m => m.userId == userId) then
              { t with teamMembers := t.teamMembers.map (fun m =>
                  if m.userId == userId then
                    { m with
                      userName := match d.name with
                        | some s => some s
                        | none => m.userName,
                      userEmail := match d.email with
                        | some e => some e
                        | none => m.userEmail }
                  else m) }
            else t) }
      (none, db2)
    else (none, db1)

-- ============================================================================
-- updateTeamSubscription (MongoDB query layer)
-- ============================================================================

/-- The argument of `updateTeamSubscription`.  The outer `Option` is
presence: `none` means the field was omitted (undefined); `some none` means
it was explicitly set to null; `some (some s)` a string value.
`subscriptionStatus` is a plain optional string (not nullable). -/
structure SubscriptionData where
  stripeCustomerId : Option (Option String)
  stripeSubscriptionId : Option (Option String)
  stripeProductId : Option (Option String)
  planName : Option (Option String)
  subscriptionStatus : Option String
deriving DecidableEq, Repr

/-- The `x || null` coercion the query layer applies to a supplied nullable
field: null stays null and the empty string collapses to null. -/
def coalesceNull : Option String → Option String
  | some s => if s = "" then none else some s
  | none => none

/-- The `$set` document built by `updateTeamSubscription` applied to one
team: supplied nullable fields are written through `coalesceNull`, a
supplied status is written as-is, omitted fields are not in the `$set`, and
`updatedAt` is always set. -/
def applySubscriptionUpdate (d : SubscriptionData) (now : Nat) (t : TeamDoc) :
    TeamDoc :=
  { t with
    stripeCustomerId := match d.stripeCustomerId with
      | none => t.stripeCustomerId
      | some v => coalesceNull v,
    stripeSubscriptionId := match d.stripeSubscriptionId with
      | none => t.stripeSubscriptionId
      | some v => coalesceNull v,
    stripeProductId := match d.stripeProductId with
      | none => t.stripeProductId
      | some v => coalesceNull v,
    planName := match d.planName with
      | none => t.planName
      | some v => coalesceNull v,
    subscriptionStatus := match d.subscriptionStatus with
      | none => t.subscriptionStatus
      | some s => some s,
    updatedAt := now }

/-- `updateTeamSubscription(teamId, subscriptionData)`: a single
`findByIdAndUpdate` with the `$set` document above; a missing team is a
no-op. -/
def updateTeamSubscription (now : Nat) (teamId : Nat) (d : SubscriptionData)
    (db : DB) : DB :=
  { db with teams := db.teams.map (fun t =>
      if t.id == teamId then applySubscriptionUpdate d now t else t) }

-- ============================================================================
-- Activity-log recorder (createActivityLog) and its caller-side wrapper
-- ============================================================================

/-- `createActivityLog(data)`: look up denormalized user name/email and team
name, then insert one log row.  `failInsert` injects a failure of the
`ActivityLog.create` call; the surrounding catch block logs the error and
rethrows it, so a failed insert propagates to the caller and writes no row. -/
def createActivityLog (failInsert : Bool) (now : Nat) (teamId : Nat)
    (userId : Option Nat) (action : String) (ipAddress : Option String)
    (db : DB) : Option DbError × DB :=
  let uinfo := userId.bind (fun uid =>
    (findUser db uid).map (fun u => (u.name, u.email)))
  let uName := uinfo.bind (fun p => p.1)
  let uEmail := uinfo.map (fun p => p.2)
  let tName := (findTeam db teamId).map (fun t => t.name)
  if failInsert then (some .injected, db)
  else
    (none, { db with logs := db.logs ++
        [{ teamId := teamId, userId := userId, action := action,
           timestamp := now, ipAddress := ipAddress, userName := uName,
           userEmail := uEmail, teamName := tName }] })

/-- The `logActivity` wrapper in the server-actions layer: skips recording
when there is no team, and wraps `createActivityLog` in a try/catch that
logs and swallows any error, so the caller's business operation proceeds
regardless. -/
def logActivity (failInsert : Bool) (now : Nat) (teamId : Option Nat)
    (userId : Nat) (action : String) (ipAddress : Option String) (db : DB) :
    DB :=
  match teamId with
  | none => db
  | some tid =>
    match createActivityLog failInsert now tid (some userId) action
        (some (ipAddress.getD "")) db with
    | (_, dbOut) => dbOut

-- ============================================================================
-- getUserWithTeam / getTeamForUser (MongoDB query layer)
-- ============================================================================

/-- `getUserWithTeam(userId)`: fetch the active user and pair it with the
`teamId` of the first element of its embedded membership list, or null when
the list is empty. -/
def getUserWithTeam (uid : Nat) (db : DB) : Option (UserDoc × Option Nat) :=
  (findActiveUser db uid).map (fun u =>
    (u, (u.teamMemberships.head?).map (fun m => m.teamId)))

/-- `getTeamForUser()` for the authenticated user `uid`: null when there is
no active user or no membership; otherwise fetch the team of the first
membership entry.  (The subsequent decoration of each member entry with a
user display object does not change the team document's own fields and is
omitted.) -/
def getTeamForUser (uid : Nat) (db : DB) : Option TeamDoc :=
  match findActiveUser db uid with
  | none => none
  | some u =>
    match u.teamMemberships.head? with
    | none => none
    | some m => findTeam db m.teamId

-- ============================================================================
-- Concrete fixtures used by witnesses and counterexamples
-- ============================================================================

/-- Ann with a membership of team 1, denormalized fields in sync. -/
def annWithTeam : UserDoc :=
  { id := 1, name := some "Ann", email := "a@x.com", role := .owner,
    teamMemberships := [{ userId := 1, teamId := 1, role := .owner, joinedAt := 0,
                          userName := some "Ann", userEmail := some "a@x.com" }],
    deletedAt := none, updatedAt := 0 }

def acmeWithAnn : TeamDoc :=
  { id := 1, name := "Acme",
    teamMembers := [{ userId := 1, teamId := 1, role := .owner, joinedAt := 0,
                      userName := some "Ann", userEmail := some "a@x.com" }],
    stripeCustomerId := none, stripeSubscriptionId := none,
    stripeProductId := none, planName := none, subscriptionStatus := none,
    updatedAt := 0 }

/-- A store where Ann and Acme are consistent with each other. -/
def dbSync : DB :=
  { users := [annWithTeam], teams := [acmeWithAnn], invitations := [], logs := [] }

/-- A pending invitation of b@x.com to team 1. -/
def inv1 : InvitationDoc :=
  { id := 7, teamId := 1, email := "b@x.com", role := .member, invitedBy := 1,
    invitedAt := 0, status := .pending, teamName := some "Acme",
    invitedByName := some "Ann", invitedByEmail := some "a@x.com" }
/-- Bob, not yet on any team. -/
def bob : UserDoc :=
  { id := 2, name := some "Bob", email := "b@x.com", role := .member,
    teamMemberships := [], deletedAt := none, updatedAt := 0 }

/-- Ann's consistent store plus Bob and a pending invitation for him. -/
def dbInv : DB :=
  { users := [annWithTeam, bob], teams := [acmeWithAnn], invitations := [inv1], logs := [] }

/-- Team 1 at the 100-member validator limit, Bob not among the members. -/
def fullTeam : TeamDoc :=
  { acmeWithAnn with teamMembers :=
      (List.range 100).map (fun i =>
        { userId := i + 10, teamId := 1, role := .member, joinedAt := 0,
          userName := none, userEmail := none }) }
/-- A store in which accepting Bob's invitation makes the team-side save fail
its member-count validation. -/
def dbFull : DB :=
  { users := [annWithTeam, bob], teams := [fullTeam], invitations := [inv1], logs := [] }

-- ============================================================================
-- Observation predicates
-- ============================================================================

/-- Team `tid` embeds a member entry for `uid` with this role. -/
def teamHasEntry (db : DB) (tid uid : Nat) (role : Role) : Bool :=
  match findTeam db tid with
  | some t => t.teamMembers.any (fun m =>
      m.userId == uid && m.teamId == tid && m.role == role)
  | none => false

/-- User `uid` embeds a membership entry for `tid` with this role. -/
def userHasEntry (db : DB) (uid tid : Nat) (role : Role) : Bool :=
  match findUser db uid with
  | some u => u.teamMemberships.any (fun m =>
      m.userId == uid && m.teamId == tid && m.role == role)
  | none => false

/-- Team `tid` embeds some member entry for `uid` (any role). -/
def teamHasMember (db : DB) (tid uid : Nat) : Bool :=
  match findTeam db tid with
  | some t => t.teamMembers.any (fun m => m.userId == uid)
  | none => false

/-- User `uid` embeds some membership entry for `tid` (any role). -/
def userHasMembership (db : DB) (uid tid : Nat) : Bool :=
  match findUser db uid with
  | some u => u.teamMemberships.any (fun m => m.teamId == tid)
  | none => false

/-- Number of member entries for `uid` in a member array. -/
def memberCountFor (uid : Nat) (ms : List Membership) : Nat :=
  (ms.filter (fun m => m.userId == uid)).length

/-- Number of membership entries for `tid` in a membership array. -/
def membershipCountFor (tid : Nat) (ms : List Membership) : Nat :=
  (ms.filter (fun m => m.teamId == tid)).length

-- ============================================================================
-- List lemmas
-- ============================================================================

theorem find?_replace_by_key {α : Type} (key : α → Nat) (k : Nat) (x' : α) :
    ∀ (l : List α) (x : α), l.find? (fun v => key v == k) = some x →
      key x' = key x →
      (l.map (fun v => if key v = key x' then x' else v)).find?
        (fun v => key v == k) = some x' := by
  intro l
  induction l with
  | nil => intro x h _; simp at h
  | cons a as ih =>
    intro x h hk
    rw [List.find?_cons] at h
    cases ha : (key a == k) with
    | true =>
      simp only [ha] at h
      have hxa : a = x := by simpa using h
      have hx'a : key x' = key a := by rw [hk, hxa]
      have hcond : key a = key x' := hx'a.symm
      have hx'k : (key x' == k) = true := by rw [hx'a]; exact ha
      simp only [List.map_cons, if_pos hcond, List.find?_cons, hx'k]
    | false =>
      simp only [ha] at h
      have hx : (key x == k) = true := by simpa using List.find?_some h
      have hxk : key x = k := by simpa using hx
      have hcond : ¬(key a = key x') := by
        intro hc
        have hak : key a = k := by rw [hc, hk, hxk]
        simp [hak] at ha
      simp only [List.map_cons, if_neg hcond, List.find?_cons, ha]
      exact ih x h hk

theorem find?_map_keyed {α : Type} (key : α → Nat) (f : α → α)
    (hf : ∀ a, key (f a) = key a) (k : Nat) :
    ∀ l : List α, (l.map f).find? (fun v => key v == k) =
      (l.find? (fun v => key v == k)).map f := by
  intro l
  induction l with
  | nil => rfl
  | cons a as ih =>
    rw [List.map_cons, List.find?_cons, List.find?_cons]
    cases ha : (key a == k) with
    | true =>
      have hfa : (key (f a) == k) = true := by rw [hf]; exact ha
      simp only [ha, hfa]
      rfl
    | false =>
      have hfa : (key (f a) == k) = false := by rw [hf]; exact ha
      simp only [ha, hfa]
      exact ih

theorem any_filter_not {α : Type} (p : α → Bool) (l : List α) :
    (l.filter (fun a => !(p a))).any p = false := by
  induction l with
  | nil => rfl
  | cons a as ih =>
    cases h : p a with
    | true => simp [List.filter_cons, h, ih]
    | false => simp [List.filter_cons, h, ih]

theorem filter_idem {α : Type} (p : α → Bool) (l : List α) :
    (l.filter p).filter p = l.filter p := by
  induction l with
  | nil => rfl
  | cons a as ih =>
    by_cases h : p a = true
    · simp [List.filter_cons, h, ih]
    · have h' : p a = false := by
        cases hb : p a with
        | true => exact absurd hb h
        | false => rfl
      simp [List.filter_cons, h', ih]

theorem length_filter_updateFirst {α : Type} (p : α → Bool) (f : α → α)
    (hf : ∀ a, p (f a) = p a) :
    ∀ l : List α, ((updateFirst p f l).filter p).length = (l.filter p).length := by
  intro l
  induction l with
  | nil => rfl
  | cons a as ih =>
    by_cases h : p a = true
    · simp [updateFirst, h, List.filter_cons, hf]
    · have h' : p a = false := by
        cases hb : p a with
        | true => exact absurd hb h
        | false => rfl
      simp [updateFirst, h', List.filter_cons, ih]

theorem count_zero_iff_not_any {α : Type} (p : α → Bool) (l : List α) :
    ((l.filter p).length = 0) ↔ l.any p = false := by
  constructor
  · intro h
    cases hb : l.any p with
    | false => rfl
    | true =>
      rw [List.any_eq_true] at hb
      obtain ⟨a, hal, hpa⟩ := hb
      have : a ∈ l.filter p := List.mem_filter.mpr ⟨hal, hpa⟩
      have hlen : 0 < (l.filter p).length := List.length_pos.mpr (by
        intro hnil; rw [hnil] at this; cases this)
      omega
  · intro h
    have : l.filter p = [] := by
      rw [List.filter_eq_nil_iff]
      intro a hal hpa
      have : l.any p = true := List.any_eq_true.mpr ⟨a, hal, hpa⟩
      rw [this] at h; cases h
    rw [this]; rfl

-- ============================================================================
-- Counting lemmas for the schema-level upsert methods
-- ============================================================================

theorem upsertMemberEntry_count (now tid uid : Nat) (role : Role)
    (n e : Option String) (ms : List Membership) :
    memberCountFor uid (upsertMemberEntry now tid uid role n e ms) =
      if memberCountFor uid ms = 0 then 1 else memberCountFor uid ms := by
  unfold upsertMemberEntry memberCountFor
  cases hany : ms.any (fun m => m.userId == uid) with
  | true =>
    have hne : ¬((ms.filter (fun m => m.userId == uid)).length = 0) := by
      intro h0
      have := (count_zero_iff_not_any (fun m => m.userId == uid) ms).mp h0
      rw [hany] at this
      cases this
    rw [if_pos rfl, if_neg hne]
    exact length_filter_updateFirst (fun m => m.userId == uid)
      (touchMemberEntry now role n e) (fun m => rfl) ms
  | false =>
    have h0 : (ms.filter (fun m => m.userId == uid)).length = 0 :=
      (count_zero_iff_not_any _ _).mpr hany
    have hnil : ms.filter (fun m => m.userId == uid) = [] :=
      List.length_eq_zero.mp h0
    rw [if_neg (show ¬(false = true) by simp), if_pos h0]
    simp [List.filter_append, hnil]

theorem upsertMembershipEntry_count (now tid : Nat) (role : Role)
    (user : UserDoc) (ms : List Membership) :
    membershipCountFor tid (upsertMembershipEntry now tid role user ms) =
      if membershipCountFor tid ms = 0 then 1 else membershipCountFor tid ms := by
  unfold upsertMembershipEntry membershipCountFor
  cases hany : ms.any (fun m => m.teamId == tid) with
  | true =>
    have hne : ¬((ms.filter (fun m => m.teamId == tid)).length = 0) := by
      intro h0
      have := (count_zero_iff_not_any (fun m => m.teamId == tid) ms).mp h0
      rw [hany] at this
      cases this
    rw [if_pos rfl, if_neg hne]
    exact length_filter_updateFirst (fun m => m.teamId == tid)
      (fun m => { m with role := role, joinedAt := now }) (fun m => rfl) ms
  | false =>
    have h0 : (ms.filter (fun m => m.teamId == tid)).length = 0 :=
      (count_zero_iff_not_any _ _).mpr hany
    have hnil : ms.filter (fun m => m.teamId == tid) = [] :=
      List.length_eq_zero.mp h0
    rw [if_neg (show ¬(false = true) by simp), if_pos h0]
    simp [List.filter_append, hnil]

theorem teamAddMember_count (now uid : Nat) (role : Role) (n e : Option String)
    (team : TeamDoc) :
    memberCountFor uid (teamAddMember now uid role n e team).teamMembers =
      if memberCountFor uid team.teamMembers = 0 then 1
      else memberCountFor uid team.teamMembers :=
  upsertMemberEntry_count now team.id uid role n e team.teamMembers

theorem userAddTeamMembership_count (now tid : Nat) (role : Role)
    (user : UserDoc) :
    membershipCountFor tid (userAddTeamMembership now tid role user).teamMemberships =
      if membershipCountFor tid user.teamMemberships = 0 then 1
      else membershipCountFor tid user.teamMemberships :=
  upsertMembershipEntry_count now tid role user user.teamMemberships

-- ============================================================================
-- C1
-- ============================================================================

/-- C1: counterexample.  The query-layer addTeamMember is not an upsert:
starting from a store with one user and one empty team, calling
addTeamMember twice with the same (team, user, role) leaves two membership
entries on the Team side and two on the User side, not one. -/
theorem addTeamMember_duplicates_on_second_call :
    teamEntryCount
        (addTeamMember false 6 1 1 .owner
          (addTeamMember false 5 1 1 .owner db0).2).2 1 1 = 2 ∧
    userEntryCount
        (addTeamMember false 6 1 1 .owner
          (addTeamMember false 5 1 1 .owner db0).2).2 1 1 = 2 := by decide

/-- C1 (amended): the schema-level instance methods are idempotent upserts on
their own side.  Team.addMember leaves exactly one member entry for the user
when none was present and otherwise updates in place without changing the
number of entries, and User.addTeamMembership behaves the same for the team;
in particular applying either method twice starting from no entry leaves
exactly one entry.  The query-layer addTeamMember, by contrast, pushes
unconditionally (see the counterexample). -/
theorem schema_addMember_upsert_idempotent :
    ∀ (now now2 uid tid : Nat) (role role2 : Role) (n e : Option String)
      (team : TeamDoc) (user : UserDoc),
      (memberCountFor uid (teamAddMember now uid role n e team).teamMembers =
        if memberCountFor uid team.teamMembers = 0 then 1
        else memberCountFor uid team.teamMembers) ∧
      (membershipCountFor tid
          (userAddTeamMembership now tid role user).teamMemberships =
        if membershipCountFor tid user.teamMemberships = 0 then 1
        else membershipCountFor tid user.teamMemberships) ∧
      (memberCountFor uid team.teamMembers = 0 →
        memberCountFor uid
          (teamAddMember now2 uid role2 n e
            (teamAddMember now uid role n e team)).teamMembers = 1) ∧
      (membershipCountFor tid user.teamMemberships = 0 →
        membershipCountFor tid
          (userAddTeamMembership now2 tid role2
            (userAddTeamMembership now tid role user)).teamMemberships = 1) := by
  intro now now2 uid tid role role2 n e team user
  refine ⟨teamAddMember_count now uid role n e team,
          userAddTeamMembership_count now tid role user, ?_, ?_⟩
  · intro h0
    rw [teamAddMember_count, teamAddMember_count, h0]
    simp
  · intro h0
    rw [userAddTeamMembership_count, userAddTeamMembership_count, h0]
    simp

/-- C1: witness for the amended theorem at a concrete team and user with no
prior entries. -/
theorem schema_addMember_upsert_idempotent_witness :
    memberCountFor 2 acmeTeam.teamMembers = 0 ∧
    memberCountFor 2
      (teamAddMember 6 2 .member none none
        (teamAddMember 5 2 .member none none acmeTeam)).teamMembers = 1 ∧
    membershipCountFor 3 annUser.teamMemberships = 0 ∧
    membershipCountFor 3
      (userAddTeamMembership 6 3 .member
        (userAddTeamMembership 5 3 .member annUser)).teamMemberships = 1 :=
  ⟨by decide,
   (schema_addMember_upsert_idempotent 5 6 2 3 .member .member none none
      acmeTeam annUser).2.2.1 (by decide),
   by decide,
   (schema_addMember_upsert_idempotent 5 6 2 3 .member .member none none
      acmeTeam annUser).2.2.2 (by decide)⟩

-- ============================================================================
-- C6
-- ============================================================================

/-- The invitation of b@x.com already resolved to accepted. -/
def acceptedInv : InvitationDoc :=
  { inv1 with status := .accepted }

/-- A store whose only invitation is already accepted. -/
def dbAccepted : DB :=
  { dbInv with invitations := [acceptedInv] }

/-- C6: counterexample.  The instance method `decline` applied to an
invitation whose status is already `accepted` (a terminal state) does not
reject the transition: it changes the status to `declined`. -/
theorem invitation_decline_overrides_accepted :
    acceptedInv.status = InvStatus.accepted ∧
    (invitationDecline acceptedInv).status = InvStatus.declined ∧
    InvStatus.declined ≠ InvStatus.accepted := by decide

/-- C6 (amended): `acceptInvitation` alone enforces terminality: on a
non-pending invitation it fails (with the not-pending error) and leaves the
store unchanged.  The instance methods `accept`/`decline`/`expire` set the
status unconditionally — they can move one terminal status to another — but
none of them (and hence no operation) ever returns a status to `pending`. -/
theorem invitation_status_transitions :
    (∀ (now invId uid : Nat) (db : DB) (inv : InvitationDoc),
        findInvitation db invId = some inv →
        inv.status ≠ InvStatus.pending →
        acceptInvitation now invId uid db = (some DbError.notPending, db)) ∧
    (∀ inv : InvitationDoc,
        (invitationAccept inv).status ≠ InvStatus.pending ∧
        (invitationDecline inv).status ≠ InvStatus.pending ∧
        (invitationExpire inv).status ≠ InvStatus.pending) := by
  constructor
  · intro now invId uid db inv hfind hstat
    unfold acceptInvitation withTransaction
    simp only [hfind, if_pos hstat]
  · intro inv
    refine ⟨?_, ?_, ?_⟩ <;> intro h <;> cases h

/-- C6: witness — on a store whose invitation is accepted, acceptInvitation
fails with the not-pending error and changes nothing. -/
theorem invitation_status_transitions_witness :
    acceptInvitation 9 7 2 dbAccepted = (some DbError.notPending, dbAccepted) :=
  invitation_status_transitions.1 9 7 2 dbAccepted acceptedInv (by decide)
    (by decide)

-- ============================================================================
-- C7
-- ============================================================================

/-- The consistent store after Ann soft-deletes her account. -/
def dbDeletedAnn : DB := softDeleteUser 5 1 dbSync

/-- C7: the User schema carries a field-level plain unique index on email in
addition to the partial `unique_active_email` index, so `createUser` with
the email of a soft-deleted user fails with a duplicate-key error even
though no active user holds that email — contradicting both the claim and
the schema's own comment that uniqueness is scoped to non-deleted users. -/
theorem createUser_rejects_softdeleted_email :
    (∀ u ∈ dbDeletedAnn.users, u.deletedAt ≠ none) ∧
    activeEmailIndexViolation dbDeletedAnn "a@x.com" = false ∧
    createUser 9 2 "a@x.com" none none dbDeletedAnn =
      (some DbError.duplicateKey, dbDeletedAnn) := by decide

-- ============================================================================
-- C8
-- ============================================================================

/-- C8: counterexample.  A failing log insert is not absorbed inside
`createActivityLog`: the recorder rethrows, the error reaches the caller,
and no log row is written. -/
theorem createActivityLog_propagates_insert_failure :
    (createActivityLog true 3 1 (some 1) "SIGN_IN" none dbSync).1 =
      some DbError.injected ∧
    (createActivityLog true 3 1 (some 1) "SIGN_IN" none dbSync).2 = dbSync := by
  decide

/-- C8 (amended): when the insert fails, `createActivityLog` logs and
rethrows — the error propagates to its caller and the store is unchanged.
Absorption happens one level up: the `logActivity` wrapper in the
server-actions layer catches and swallows the failure, so a business
operation recording through `logActivity` always proceeds (for every store,
team and payload the wrapper returns a store, never an error, and on a
failed insert returns it unchanged). -/
theorem activityLog_failure_policy :
    ∀ (now tid uid2 : Nat) (userId : Option Nat) (tOpt : Option Nat)
      (action : String) (ip : Option String) (db : DB),
      createActivityLog true now tid userId action ip db =
        (some DbError.injected, db) ∧
      logActivity true now tOpt uid2 action ip db = db := by
  intro now tid uid2 userId tOpt action ip db
  constructor
  · rfl
  · cases tOpt with
    | none => rfl
    | some t => rfl

-- ============================================================================
-- C9
-- ============================================================================

/-- A subscription-data argument with every field omitted. -/
def emptySub : SubscriptionData :=
  { stripeCustomerId := none, stripeSubscriptionId := none,
    stripeProductId := none, planName := none, subscriptionStatus := none }

/-- C9: counterexample.  `updateTeamSubscription` changes a Team field not
named in its argument: with every field omitted it still rewrites
`updatedAt` (from 0 to 9 here), so the claim's frame condition fails as
stated. -/
theorem updateTeamSubscription_touches_updatedAt :
    ((findTeam dbSync 1).map (fun t => t.updatedAt) = some 0) ∧
    ((findTeam (updateTeamSubscription 9 1 emptySub dbSync) 1).map
        (fun t => t.updatedAt) = some 9) := by decide

/-- C9 (amended): per-field semantics of `updateTeamSubscription`.  The call
rewrites exactly the teams with the given id using
`applySubscriptionUpdate` and touches no other collection; on the matched
team a field explicitly set to null is cleared, a field omitted is left
exactly as it was, and every Team field not named in the argument other
than the `updatedAt` timestamp (in particular `name` and `teamMembers`) is
unchanged, while `updatedAt` is always set to the time of the call. -/
theorem updateTeamSubscription_field_semantics :
    ∀ (now tid : Nat) (d : SubscriptionData) (db : DB) (t : TeamDoc),
      ((updateTeamSubscription now tid d db).teams =
        db.teams.map (fun u => if u.id == tid then applySubscriptionUpdate d now u else u)) ∧
      ((updateTeamSubscription now tid d db).users = db.users) ∧
      ((updateTeamSubscription now tid d db).invitations = db.invitations) ∧
      ((updateTeamSubscription now tid d db).logs = db.logs) ∧
      (d.stripeCustomerId = some none →
        (applySubscriptionUpdate d now t).stripeCustomerId = none) ∧
      (d.stripeCustomerId = none →
        (applySubscriptionUpdate d now t).stripeCustomerId = t.stripeCustomerId) ∧
      (d.stripeSubscriptionId = some none →
        (applySubscriptionUpdate d now t).stripeSubscriptionId = none) ∧
      (d.stripeSubscriptionId = none →
        (applySubscriptionUpdate d now t).stripeSubscriptionId = t.stripeSubscriptionId) ∧
      (d.stripeProductId = some none →
        (applySubscriptionUpdate d now t).stripeProductId = none) ∧
      (d.stripeProductId = none →
        (applySubscriptionUpdate d now t).stripeProductId = t.stripeProductId) ∧
      (d.planName = some none →
        (applySubscriptionUpdate d now t).planName = none) ∧
      (d.planName = none →
        (applySubscriptionUpdate d now t).planName = t.planName) ∧
      (d.subscriptionStatus = none →
        (applySubscriptionUpdate d now t).subscriptionStatus = t.subscriptionStatus) ∧
      ((applySubscriptionUpdate d now t).name = t.name) ∧
      ((applySubscriptionUpdate d now t).teamMembers = t.teamMembers) ∧
      ((applySubscriptionUpdate d now t).id = t.id) ∧
      ((applySubscriptionUpdate d now t).updatedAt = now) := by
  intro now tid d db t
  refine ⟨rfl, rfl, rfl, rfl, ?_, ?_, ?_, ?_, ?_, ?_, ?_, ?_, ?_, rfl, rfl, rfl, rfl⟩
  all_goals intro h
  all_goals simp [applySubscriptionUpdate, h, coalesceNull]

/-- C9: witness at a concrete team: an explicit null clears the
subscription id, omitted fields stay, name and members survive, updatedAt
is stamped. -/
theorem updateTeamSubscription_field_semantics_witness :
    ((applySubscriptionUpdate
        { stripeCustomerId := none, stripeSubscriptionId := some none,
          stripeProductId := none, planName := none,
          subscriptionStatus := some "active" } 7 acmeWithAnn).stripeSubscriptionId
      = none) ∧
    ((applySubscriptionUpdate
        { stripeCustomerId := none, stripeSubscriptionId := some none,
          stripeProductId := none, planName := none,
          subscriptionStatus := some "active" } 7 acmeWithAnn).planName
      = acmeWithAnn.planName) ∧
    ((applySubscriptionUpdate
        { stripeCustomerId := none, stripeSubscriptionId := some none,
          stripeProductId := none, planName := none,
          subscriptionStatus := some "active" } 7 acmeWithAnn).teamMembers
      = acmeWithAnn.teamMembers) ∧
    ((applySubscriptionUpdate
        { stripeCustomerId := none, stripeSubscriptionId := some none,
          stripeProductId := none, planName := none,
          subscriptionStatus := some "active" } 7 acmeWithAnn).updatedAt = 7) := by
  have h := updateTeamSubscription_field_semantics 7 1
    { stripeCustomerId := none, stripeSubscriptionId := some none,
      stripeProductId := none, planName := none,
      subscriptionStatus := some "active" } dbSync acmeWithAnn
  exact ⟨h.2.2.2.2.2.2.1 rfl, h.2.2.2.2.2.2.2.2.2.2.2.1 rfl,
    h.2.2.2.2.2.2.2.2.2.2.2.2.2.2.1, h.2.2.2.2.2.2.2.2.2.2.2.2.2.2.2.2⟩

-- ============================================================================
-- C10
-- ============================================================================

/-- C10: implicit first-team selection.  For an active user,
`getUserWithTeam` pairs the user with the teamId of the first membership
entry (null when the list is empty, with no error), and `getTeamForUser`
looks up exactly the team of that first entry (null on an empty list), so
memberships after the first are unreachable through these operations. -/
theorem first_membership_selection :
    ∀ (uid : Nat) (db : DB) (u : UserDoc),
      findActiveUser db uid = some u →
      (u.teamMemberships = [] →
        getUserWithTeam uid db = some (u, none) ∧ getTeamForUser uid db = none) ∧
      (∀ (m : Membership) (rest : List Membership),
        u.teamMemberships = m :: rest →
        getUserWithTeam uid db = some (u, some m.teamId) ∧
        getTeamForUser uid db = findTeam db m.teamId) := by
  intro uid db u hfind
  constructor
  · intro hnil
    constructor
    · simp [getUserWithTeam, hfind, hnil]
    · simp [getTeamForUser, hfind, hnil]
  · intro m rest hcons
    constructor
    · simp [getUserWithTeam, hfind, hcons]
    · simp [getTeamForUser, hfind, hcons]

/-- Carol belongs to two teams; team 1 comes first in her list. -/
def carol : UserDoc :=
  { id := 3, name := some "Carol", email := "c@x.com", role := .member,
    teamMemberships :=
      [{ userId := 3, teamId := 1, role := .member, joinedAt := 0,
         userName := some "Carol", userEmail := some "c@x.com" },
       { userId := 3, teamId := 2, role := .member, joinedAt := 1,
         userName := some "Carol", userEmail := some "c@x.com" }],
    deletedAt := none, updatedAt := 0 }

/-- A second team. -/
def betaTeam : TeamDoc :=
  { id := 2, name := "Beta", teamMembers := [], stripeCustomerId := none,
    stripeSubscriptionId := none, stripeProductId := none, planName := none,
    subscriptionStatus := none, updatedAt := 0 }

/-- A store where Carol is on two teams. -/
def dbCarol : DB :=
  { users := [carol], teams := [acmeTeam, betaTeam], invitations := [],
    logs := [] }

/-- C10: witness — with two memberships, only the first team (id 1) is
reachable, and it is returned. -/
theorem first_membership_selection_witness :
    getUserWithTeam 3 dbCarol = some (carol, some 1) ∧
    getTeamForUser 3 dbCarol = some acmeTeam :=
  have h := (first_membership_selection 3 dbCarol carol (by decide)).2
    { userId := 3, teamId := 1, role := .member, joinedAt := 0,
      userName := some "Carol", userEmail := some "c@x.com" }
    [{ userId := 3, teamId := 2, role := .member, joinedAt := 1,
       userName := some "Carol", userEmail := some "c@x.com" }] rfl
  ⟨h.1, by rw [h.2]; decide⟩

-- ============================================================================
-- C4
-- ============================================================================

/-- C4: a committed removeMember leaves no entry for (user, team) on either
side, never errors, and a second identical call also succeeds and leaves
every membership array (both sides, all documents) exactly as the first
call left them — a no-op rather than an error. -/
theorem removeTeamMember_clears_both_sides_idempotent :
    ∀ (now now2 tid uid : Nat) (db : DB),
      (removeTeamMember now tid uid db).1 = none ∧
      teamHasMember (removeTeamMember now tid uid db).2 tid uid = false ∧
      userHasMembership (removeTeamMember now tid uid db).2 uid tid = false ∧
      (removeTeamMember now2 tid uid (removeTeamMember now tid uid db).2).1 = none ∧
      ((removeTeamMember now2 tid uid (removeTeamMember now tid uid db).2).2.teams.map
          (fun t => (t.id, t.teamMembers)) =
        (removeTeamMember now tid uid db).2.teams.map (fun t => (t.id, t.teamMembers))) ∧
      ((removeTeamMember now2 tid uid (removeTeamMember now tid uid db).2).2.users.map
          (fun u => (u.id, u.teamMemberships)) =
        (removeTeamMember now tid uid db).2.users.map (fun u => (u.id, u.teamMemberships))) := by
  intro now now2 tid uid db
  have hfT : ∀ (nw : Nat) (a : TeamDoc),
      ((if a.id == tid then
          { a with teamMembers := a.teamMembers.filter (fun m => !(m.userId == uid)),
                   updatedAt := nw }
        else a : TeamDoc)).id = a.id := by
    intro nw a
    split <;> rfl
  have hfU : ∀ (nw : Nat) (a : UserDoc),
      ((if a.id == uid then
          { a with teamMemberships := a.teamMemberships.filter (fun m => !(m.teamId == tid)),
                   updatedAt := nw }
        else a : UserDoc)).id = a.id := by
    intro nw a
    split <;> rfl
  refine ⟨rfl, ?_, ?_, rfl, ?_, ?_⟩
  · have hchar : (removeTeamMember now tid uid db).2.teams =
        db.teams.map (fun a =>
          if a.id == tid then
            { a with teamMembers := a.teamMembers.filter (fun m => !(m.userId == uid)),
                     updatedAt := now }
          else a) := rfl
    unfold teamHasMember findTeam
    rw [hchar, find?_map_keyed (fun t => t.id) _ (hfT now) tid db.teams]
    cases hft : db.teams.find? (fun t => t.id == tid) with
    | none => rfl
    | some t =>
      have htid : t.id = tid := by simpa using List.find?_some hft
      simp [htid, List.mem_filter]
  · have hchar : (removeTeamMember now tid uid db).2.users =
        db.users.map (fun a =>
          if a.id == uid then
            { a with teamMemberships := a.teamMemberships.filter (fun m => !(m.teamId == tid)),
                     updatedAt := now }
          else a) := rfl
    unfold userHasMembership findUser
    rw [hchar, find?_map_keyed (fun u => u.id) _ (hfU now) uid db.users]
    cases hfu : db.users.find? (fun u => u.id == uid) with
    | none => rfl
    | some u =>
      have huid : u.id = uid := by simpa using List.find?_some hfu
      simp [huid, List.mem_filter]
  · have h1 : (removeTeamMember now tid uid db).2.teams =
        db.teams.map (fun a =>
          if a.id == tid then
            { a with teamMembers := a.teamMembers.filter (fun m => !(m.userId == uid)),
                     updatedAt := now }
          else a) := rfl
    have h2 : (removeTeamMember now2 tid uid (removeTeamMember now tid uid db).2).2.teams =
        ((removeTeamMember now tid uid db).2.teams).map (fun a =>
          if a.id == tid then
            { a with teamMembers := a.teamMembers.filter (fun m => !(m.userId == uid)),
                     updatedAt := now2 }
          else a) := rfl
    rw [h2, h1]
    simp only [List.map_map]
    apply List.map_congr_left
    intro a _
    by_cases h : (a.id == tid) = true
    · simp [Function.comp, h, filter_idem]
    · have h' : (a.id == tid) = false := by
        cases hb : (a.id == tid) with
        | true => exact absurd hb h
        | false => rfl
      simp [Function.comp, h']
  · have h1 : (removeTeamMember now tid uid db).2.users =
        db.users.map (fun a =>
          if a.id == uid then
            { a with teamMemberships := a.teamMemberships.filter (fun m => !(m.teamId == tid)),
                     updatedAt := now }
          else a) := rfl
    have h2 : (removeTeamMember now2 tid uid (removeTeamMember now tid uid db).2).2.users =
        ((removeTeamMember now tid uid db).2.users).map (fun a =>
          if a.id == uid then
            { a with teamMemberships := a.teamMemberships.filter (fun m => !(m.teamId == tid)),
                     updatedAt := now2 }
          else a) := rfl
    rw [h2, h1]
    simp only [List.map_map]
    apply List.map_congr_left
    intro a _
    by_cases h : (a.id == uid) = true
    · simp [Function.comp, h, filter_idem]
    · have h' : (a.id == uid) = false := by
        cases hb : (a.id == uid) with
        | true => exact absurd hb h
        | false => rfl
      simp [Function.comp, h']

-- ============================================================================
-- Find/save composition lemmas
-- ============================================================================

theorem findTeam_saveTeamDoc (db : DB) (tid : Nat) (t t' : TeamDoc)
    (h : findTeam db tid = some t) (hid : t'.id = t.id) :
    findTeam (saveTeamDoc db t') tid = some t' := by
  unfold findTeam at h ⊢
  unfold saveTeamDoc
  exact find?_replace_by_key (fun v => v.id) tid t' db.teams t h hid

theorem findUser_saveUserDoc (db : DB) (uid : Nat) (u u' : UserDoc)
    (h : findUser db uid = some u) (hid : u'.id = u.id) :
    findUser (saveUserDoc db u') uid = some u' := by
  unfold findUser at h ⊢
  unfold saveUserDoc
  exact find?_replace_by_key (fun v => v.id) uid u' db.users u h hid

theorem findTeam_saveUserDoc (db : DB) (tid : Nat) (u : UserDoc) :
    findTeam (saveUserDoc db u) tid = findTeam db tid := rfl

theorem findUser_saveTeamDoc (db : DB) (uid : Nat) (t : TeamDoc) :
    findUser (saveTeamDoc db t) uid = findUser db uid := rfl

-- ============================================================================
-- C2
-- ============================================================================

/-- C2: addTeamMember is all-or-nothing across the two documents.  For every
call — including one with a fault injected between the Team-side save and
the User-side save — either the call fails and the observable store is
exactly the one before the call (neither write committed), or it succeeds
and both the Team document and the User document carry the new membership
entry. -/
theorem addTeamMember_atomic :
    ∀ (flag : Bool) (now tid uid : Nat) (role : Role) (db : DB),
      ((addTeamMember flag now tid uid role db).1.isSome = true →
        (addTeamMember flag now tid uid role db).2 = db) ∧
      ((addTeamMember flag now tid uid role db).1 = none →
        teamHasEntry (addTeamMember flag now tid uid role db).2 tid uid role = true ∧
        userHasEntry (addTeamMember flag now tid uid role db).2 uid tid role = true) := by
  intro flag now tid uid role db
  simp only [addTeamMember, withTransaction]
  rcases hu : findUser db uid with _ | user
  · rcases ht : findTeam db tid with _ | team
    · simp [hu, ht]
    · simp [hu, ht]
  · rcases ht : findTeam db tid with _ | team
    · simp [hu, ht]
    · simp only [addTeamMember, withTransaction, sessionSaveTeam, sessionSaveUser, hu, ht]
      by_cases hv1 : teamValid { team with teamMembers := team.teamMembers ++
          [{ userId := uid, teamId := tid, role := role, joinedAt := now,
             userName := user.name, userEmail := some user.email }] } = true
      · by_cases hv2 : userValid { user with teamMemberships := user.teamMemberships ++
            [{ userId := uid, teamId := tid, role := role, joinedAt := now,
               userName := user.name, userEmail := some user.email }] } = true
        · cases flag with
          | true => simp [hv1, hv2]
          | false =>
            simp only [hv1, hv2, if_pos, if_true, if_false, Bool.false_eq_true, ite_false, ite_true]
            constructor
            · intro hc
              simp at hc
            · intro _
              constructor
              · unfold teamHasEntry
                rw [findTeam_saveUserDoc,
                  show (findTeam (saveTeamDoc db
                      { team with teamMembers := team.teamMembers ++
                          [{ userId := uid, teamId := tid, role := role, joinedAt := now,
                             userName := user.name, userEmail := some user.email }] }) tid) =
                    some { team with teamMembers := team.teamMembers ++
                          [{ userId := uid, teamId := tid, role := role, joinedAt := now,
                             userName := user.name, userEmail := some user.email }] }
                  from findTeam_saveTeamDoc db tid team _ ht rfl]
                simp [List.any_append]
              · unfold userHasEntry
                rw [show (findUser (saveUserDoc (saveTeamDoc db
                      { team with teamMembers := team.teamMembers ++
                          [{ userId := uid, teamId := tid, role := role, joinedAt := now,
                             userName := user.name, userEmail := some user.email }] })
                      { user with teamMemberships := user.teamMemberships ++
                          [{ userId := uid, teamId := tid, role := role, joinedAt := now,
                             userName := user.name, userEmail := some user.email }] }) uid) =
                    some { user with teamMemberships := user.teamMemberships ++
                          [{ userId := uid, teamId := tid, role := role, joinedAt := now,
                             userName := user.name, userEmail := some user.email }] }
                  from findUser_saveUserDoc _ uid user _ hu rfl]
                simp [List.any_append]
        · have hv2f := Bool.not_eq_true _ |>.mp hv2
          cases flag with
          | true => simp [hv1]
          | false => simp [hv1, hv2f]
      · have hv1f := Bool.not_eq_true _ |>.mp hv1
        cases flag with
        | true => simp [hv1f]
        | false => simp [hv1f]

/-- C2: witness — with the fault injected after the Team-side save the call
fails and the observable store is exactly the original; without the fault
the same call succeeds and both documents carry the entry. -/
theorem addTeamMember_atomic_witness :
    ((addTeamMember true 5 1 2 .member dbInv).1.isSome = true ∧
      (addTeamMember true 5 1 2 .member dbInv).2 = dbInv) ∧
    ((addTeamMember false 5 1 2 .member dbInv).1 = none ∧
      teamHasEntry (addTeamMember false 5 1 2 .member dbInv).2 1 2 .member = true ∧
      userHasEntry (addTeamMember false 5 1 2 .member dbInv).2 2 1 .member = true) :=
  ⟨⟨by decide, (addTeamMember_atomic true 5 1 2 .member dbInv).1 (by decide)⟩,
   by decide,
   ((addTeamMember_atomic false 5 1 2 .member dbInv).2 (by decide)).1,
   ((addTeamMember_atomic false 5 1 2 .member dbInv).2 (by decide)).2⟩

-- ============================================================================
-- C3
-- ============================================================================

theorem acceptInvitation_error_unchanged :
    ∀ (now invId uid : Nat) (db : DB),
      (acceptInvitation now invId uid db).1.isSome = true →
      (acceptInvitation now invId uid db).2 = db := by
  intro now invId uid db herr
  simp only [acceptInvitation, withTransaction] at herr ⊢
  rcases hi : findInvitation db invId with _ | inv0
  · simp [hi]
  · simp only [hi] at herr ⊢
    by_cases hst : inv0.status ≠ InvStatus.pending
    · simp [if_pos hst]
    · simp only [if_neg hst] at herr ⊢
      rcases hu : findUser db uid with _ | user
      · simp [hu]
      · simp only [hu] at herr ⊢
        rcases ht : findTeam db inv0.teamId with _ | team
        · simp [ht]
        · simp only [ht, sessionSaveTeam, sessionSaveUser,
            sessionSaveInvitation] at herr ⊢
          by_cases hv1 : teamValid
              (teamAddMember now uid inv0.role user.name (some user.email) team) = true
          · by_cases hv2 : userValid
                (userAddTeamMembership now inv0.teamId inv0.role user) = true
            · simp [hv1, hv2] at herr
            · have h2f := Bool.not_eq_true _ |>.mp hv2
              simp [hv1, h2f]
          · have h1f := Bool.not_eq_true _ |>.mp hv1
            simp [h1f]

/-- C3: acceptInvitation runs validate, member-add and status flip in one
transaction: whenever any sub-step fails (in particular when the membership
add fails its save), the observable store is exactly the one before the
call — the Team and User documents are unchanged and the invitation is
still stored as it was, status pending, so the call may be retried. -/
theorem acceptInvitation_rollback_on_failure :
    ∀ (now invId uid : Nat) (db : DB) (inv : InvitationDoc),
      findInvitation db invId = some inv →
      inv.status = InvStatus.pending →
      (acceptInvitation now invId uid db).1.isSome = true →
      (acceptInvitation now invId uid db).2 = db ∧
      findInvitation (acceptInvitation now invId uid db).2 invId = some inv ∧
      inv.status = InvStatus.pending := by
  intro now invId uid db inv hfind hpend herr
  have hun := acceptInvitation_error_unchanged now invId uid db herr
  exact ⟨hun, by rw [hun]; exact hfind, hpend⟩

/-- C3: witness — accepting Bob's pending invitation to a team already at
the 100-member validator limit fails the membership add, and the store is
byte-for-byte the original: invitation still pending, both documents
untouched. -/
theorem acceptInvitation_rollback_on_failure_witness :
    findInvitation dbFull 7 = some inv1 ∧
    inv1.status = InvStatus.pending ∧
    (acceptInvitation 5 7 2 dbFull).1.isSome = true ∧
    (acceptInvitation 5 7 2 dbFull).2 = dbFull :=
  ⟨by decide, by decide, by decide,
   (acceptInvitation_rollback_on_failure 5 7 2 dbFull inv1 (by decide)
      (by decide) (by decide)).1⟩

-- ============================================================================
-- C5
-- ============================================================================

/-- The user's name after an updateUser call: the supplied value when the
field was supplied, the stored one otherwise. -/
def updatedName (d : UpdateUserData) (user : UserDoc) : Option String :=
  match d.name with
  | some s => some s
  | none => user.name

/-- The user's email after an updateUser call with an already-lowercase
supplied value. -/
def updatedEmail (d : UpdateUserData) (user : UserDoc) : String :=
  match d.email with
  | some e => e
  | none => user.email

/-- C5: counterexample.  updateUser with name set to the empty string is a
committed call that changes the name, but the truthiness guard skips the
fan-out entirely: afterwards the user's current name is the empty string
while the team's embedded entry still reads the old name. -/
theorem updateUser_fanout_skipped_on_empty_name :
    ((findUser (updateUser 9 1 { name := some "", email := none, role := none } dbSync).2 1).map
        (fun u => u.name) = some (some "")) ∧
    ((findTeam (updateUser 9 1 { name := some "", email := none, role := none } dbSync).2 1).map
        (fun t => t.teamMembers.map (fun m => m.userName)) = some [some "Ann"]) ∧
    (some "Ann" : Option String) ≠ some "" := by decide

/-- C5 (amended): the fan-out converges for truthy updates over the
membership-list fan-out set.  For a committed updateUser call supplying a
non-empty name or a non-empty already-lowercase email, if beforehand every
Team in the user's membership list had this user's embedded entry in sync
with the user document, then afterwards the user's current name/email are
the updated values, and every member entry for this user in every Team of
the membership list equals them — including when only one of the two
fields was supplied (the untouched field keeps its in-sync value). -/
theorem updateUser_fanout_converges :
    ∀ (now uid : Nat) (d : UpdateUserData) (db : DB) (user : UserDoc),
      findUser db uid = some user →
      (∀ s, d.name = some s → s ≠ "") →
      (∀ e, d.email = some e → e ≠ "" ∧ lowerString e = e) →
      (d.name.isSome = true ∨ d.email.isSome = true) →
      (∀ t ∈ db.teams,
        (user.teamMemberships.map (fun mm => mm.teamId)).contains t.id = true →
        ∀ m ∈ t.teamMembers, m.userId = uid →
          m.userName = user.name ∧ m.userEmail = some user.email) →
      ((findUser (updateUser now uid d db).2 uid).map (fun u => (u.name, u.email)) =
          some (updatedName d user, updatedEmail d user)) ∧
      (∀ t ∈ (updateUser now uid d db).2.teams,
        (user.teamMemberships.map (fun mm => mm.teamId)).contains t.id = true →
        ∀ m ∈ t.teamMembers, m.userId = uid →
          m.userName = updatedName d user ∧ m.userEmail = some (updatedEmail d user)) := by
  intro now uid d db user hfind hname hemail hsome hsync
  have htruthy : (truthy d.name || truthy d.email) = true := by
    rcases hsome with h | h
    · rcases hd : d.name with _ | s
      · rw [hd] at h; cases h
      · have hs := hname s hd
        simp [truthy, hs]
    · rcases hd : d.email with _ | e
      · rw [hd] at h; cases h
      · have he := (hemail e hd).1
        simp [truthy, he]
  have hu2 : findUser (updateUser now uid d db).2 uid = some
      { user with
        name := match d.name with | some s => some s | none => user.name,
        email := match d.email with
          | some e => if e ≠ "" then lowerString e else e
          | none => user.email,
        role := d.role.getD user.role,
        updatedAt := now } := by
    simp only [updateUser, hfind]
    rw [if_pos htruthy]
    exact findUser_saveUserDoc db uid user _ hfind rfl
  constructor
  · rw [hu2]
    rcases hd : d.email with _ | e
    · simp [updatedName, updatedEmail, hd]
    · have he := hemail e hd
      simp [updatedName, updatedEmail, hd, he.1, he.2]
  · have hteams : (updateUser now uid d db).2.teams =
        db.teams.map (fun t0 =>
          if (user.teamMemberships.map (fun mm => mm.teamId)).contains t0.id &&
              t0.teamMembers.any (fun mm => mm.userId == uid) then
            { t0 with teamMembers := t0.teamMembers.map (fun mm =>
                if mm.userId == uid then
                  { mm with
                    userName := match d.name with | some s => some s | none => mm.userName,
                    userEmail := match d.email with | some e => some e | none => mm.userEmail }
                else mm) }
          else t0) := by
      simp only [updateUser, hfind]
      rw [if_pos htruthy]
      rfl
    intro t ht hcontains m hm hmuid
    rw [hteams] at ht
    rcases List.mem_map.mp ht with ⟨t0, ht0, rfl⟩
    by_cases hcond : ((user.teamMemberships.map (fun mm => mm.teamId)).contains t0.id &&
        t0.teamMembers.any (fun mm => mm.userId == uid)) = true
    · rw [if_pos hcond] at hcontains hm
      have hcontains0 : (user.teamMemberships.map (fun mm => mm.teamId)).contains t0.id = true :=
        hcontains
      rcases List.mem_map.mp hm with ⟨m0, hm0, rfl⟩
      by_cases hm0uid : (m0.userId == uid) = true
      · rw [if_pos hm0uid]
        have hm0uid' : m0.userId = uid := by simpa using hm0uid
        have hsync0 := hsync t0 ht0 hcontains0 m0 hm0 hm0uid'
        constructor
        · rcases hd : d.name with _ | s
          · simpa [updatedName, hd] using hsync0.1
          · simp [updatedName, hd]
        · rcases hd : d.email with _ | e
          · simpa [updatedEmail, hd] using hsync0.2
          · simp [updatedEmail, hd]
      · rw [if_neg hm0uid] at hmuid ⊢
        exact absurd (by simp [hmuid]) hm0uid
    · rw [if_neg hcond] at hcontains hm
      exfalso
      apply hcond
      have hany : t0.teamMembers.any (fun mm => mm.userId == uid) = true :=
        List.any_eq_true.mpr ⟨m, hm, by simp [hmuid]⟩
      rw [hcontains, hany]
      rfl

/-- The update payload used by the C5 witness. -/
def boUpdate : UpdateUserData :=
  { name := some "Bo", email := some "b@x.com", role := none }

/-- C5: witness — updating Ann's name and email together, from an in-sync
store, leaves the user document and the team's embedded entry agreeing on
the new values. -/
theorem updateUser_fanout_converges_witness :
    ((findUser (updateUser 9 1 boUpdate dbSync).2 1).map
        (fun u => (u.name, u.email)) =
      some (updatedName boUpdate annWithTeam, updatedEmail boUpdate annWithTeam)) ∧
    (∀ t ∈ (updateUser 9 1 boUpdate dbSync).2.teams,
      (annWithTeam.teamMemberships.map (fun mm => mm.teamId)).contains t.id = true →
      ∀ m ∈ t.teamMembers, m.userId = 1 →
        m.userName = updatedName boUpdate annWithTeam ∧
        m.userEmail = some (updatedEmail boUpdate annWithTeam)) :=
  updateUser_fanout_converges 9 1 boUpdate dbSync annWithTeam
    (by decide)
    (by intro s hs; rw [show boUpdate.name = some "Bo" from rfl,
          Option.some.injEq] at hs; subst hs; decide)
    (by intro e he; rw [show boUpdate.email = some "b@x.com" from rfl,
          Option.some.injEq] at he; subst he; exact ⟨by decide, by decide⟩)
    (Or.inl (by decide))
    (by decide)

end SaaS
